import Mathlib

/-!
Shallow embedding of the oban-py background-job library (modules
`oban/cron.py`, `oban/job.py`, `oban/query.py`, `oban/oban.py`,
`oban/_producer.py`, `oban/_stager.py`) together with theorems settling the
specification claims about it.

Python strings are modelled as `List Char` (code points); the Python string
helpers used by the source (`re.split`, `str.split`, `str.strip`,
`str.lower`, `str.replace`, `int`) are re-implemented below by structural
recursion so that every definition evaluates inside `decide`.  Whitespace and
digits are modelled over ASCII, which covers every string the library itself
produces and every test input.  Machine integers do not occur: Python ints
are arbitrary precision, so `Nat`/`Int` model them exactly.  `datetime`
values are modelled as integer microseconds (the exact resolution of
`datetime`/`timedelta` arithmetic).
-/

namespace ObanPy

/-- Decidable equality for `Except`, needed so concrete runs of the embedded
functions can be checked with `decide`. -/
instance exceptDecEq {ε α : Type} [DecidableEq ε] [DecidableEq α] : DecidableEq (Except ε α) := fun a b =>
  match a, b with
  | .ok x, .ok y =>
    if h : x = y then .isTrue (by rw [h]) else .isFalse (fun hc => h (Except.ok.inj hc))
  | .error e, .error f =>
    if h : e = f then .isTrue (by rw [h]) else .isFalse (fun hc => h (Except.error.inj hc))
  | .ok _, .error _ => .isFalse (fun hc => Except.noConfusion hc)
  | .error _, .ok _ => .isFalse (fun hc => Except.noConfusion hc)

/-- Left-to-right effectful map over `Except`: the first raised error wins,
exactly like a Python `for` loop whose body may raise. -/
def exceptMapM {α β : Type} (f : α → Except String β) : List α → Except String (List β)
  | [] => .ok []
  | a :: as =>
    match f a with
    | .error e => .error e
    | .ok b =>
      match exceptMapM f as with
      | .error e => .error e
      | .ok bs => .ok (b :: bs)

/-- The ASCII whitespace characters recognized by Python's `\s` and
`str.strip()` (space, tab, newline, carriage return, vertical tab, form
feed). -/
def isPySpace (c : Char) : Bool :=
  c == ' ' || c == Char.ofNat 9 || c == Char.ofNat 10 || c == Char.ofNat 13 ||
    c == Char.ofNat 11 || c == Char.ofNat 12

/-- Split at every character satisfying `p`, keeping empty pieces — the
semantics of Python `str.split(sep)` for a one-character separator,
generalized to a character predicate. -/
def splitAnyChar (p : Char → Bool) : List Char → List (List Char)
  | [] => [[]]
  | c :: cs =>
    if p c then [] :: splitAnyChar p cs
    else
      match splitAnyChar p cs with
      | [] => [[c]]
      | q :: qs => (c :: q) :: qs

/-- Python `str.split(sep)` for a single-character separator. -/
def splitOnChar (sep : Char) (l : List Char) : List (List Char) :=
  splitAnyChar (fun c => c == sep) l

/-- Drop empty pieces except a final one (helper for `splitWsL`). -/
def keepLastNonempty : List (List Char) → List (List Char)
  | [] => []
  | [x] => [x]
  | x :: xs => if x = [] then keepLastNonempty xs else x :: keepLastNonempty xs

/-- Python `re.split(r"\s+", s)`: pieces between maximal whitespace runs,
with an empty leading (trailing) piece when the string starts (ends) with
whitespace.  Splitting at every single whitespace character and then
collapsing the interior empty pieces produces exactly that. -/
def splitWsL (l : List Char) : List (List Char) :=
  match splitAnyChar isPySpace l with
  | [] => []
  | x :: xs => x :: keepLastNonempty xs

/-- Python `str.lstrip()` on code points. -/
def stripL (l : List Char) : List Char := l.dropWhile isPySpace

/-- Python `str.rstrip()` on code points. -/
def stripR (l : List Char) : List Char := (l.reverse.dropWhile isPySpace).reverse

/-- Python `str.strip()` on code points. -/
def pyStripL (l : List Char) : List Char := stripR (stripL l)

/-- Python `str.strip()`. -/
def pyStrip (s : String) : String := String.mk (pyStripL s.data)

/-- Python `str.lower()` on code points (ASCII case mapping). -/
def pyLowerL (l : List Char) : List Char := l.map Char.toLower

/-- Python `str.lower()`. -/
def pyLower (s : String) : String := String.mk (pyLowerL s.data)

/-- Python string comparison `a <= b`: lexicographic on code points. -/
def pyLe : List Char → List Char → Bool
  | [], _ => true
  | _ :: _, [] => false
  | c :: cs, d :: ds => decide (c.toNat < d.toNat) || (decide (c.toNat = d.toNat) && pyLe cs ds)

/-- Python string comparison `a <= b` on `String`. -/
def strLe (a b : String) : Bool := pyLe a.data b.data

theorem pyLe_trans : ∀ a b c, pyLe a b = true → pyLe b c = true → pyLe a c = true := by
  intro a
  induction a with
  | nil => intro b c _ _; rfl
  | cons x xs ih =>
    intro b c hab hbc
    cases b with
    | nil => simp [pyLe] at hab
    | cons y ys =>
      cases c with
      | nil => simp [pyLe] at hbc
      | cons z zs =>
        simp only [pyLe, Bool.or_eq_true, Bool.and_eq_true, decide_eq_true_eq] at hab hbc ⊢
        rcases hab with h1 | ⟨h1, h2⟩ <;> rcases hbc with h3 | ⟨h3, h4⟩
        · exact Or.inl (Nat.lt_trans h1 h3)
        · exact Or.inl (h3 ▸ h1)
        · exact Or.inl (h1 ▸ h3)
        · exact Or.inr ⟨h1.trans h3, ih ys zs h2 h4⟩

theorem pyLe_total : ∀ a b, pyLe a b = true ∨ pyLe b a = true := by
  intro a
  induction a with
  | nil => intro b; exact Or.inl rfl
  | cons x xs ih =>
    intro b
    cases b with
    | nil => exact Or.inr rfl
    | cons y ys =>
      simp only [pyLe, Bool.or_eq_true, Bool.and_eq_true, decide_eq_true_eq]
      rcases Nat.lt_trichotomy x.toNat y.toNat with h | h | h
      · exact Or.inl (Or.inl h)
      · rcases ih ys with h2 | h2
        · exact Or.inl (Or.inr ⟨h, h2⟩)
        · exact Or.inr (Or.inr ⟨h.symm, h2⟩)
      · exact Or.inr (Or.inl h)

instance strLeTotal : IsTotal String (fun a b => strLe a b = true) :=
  ⟨fun a b => pyLe_total a.data b.data⟩

instance strLeTrans : IsTrans String (fun a b => strLe a b = true) :=
  ⟨fun a b c => pyLe_trans a.data b.data c.data⟩

/-- Python `int(s)` on a string of decimal digits. -/
def natOfDigits (l : List Char) : ℕ := l.foldl (fun n c => 10 * n + (c.toNat - 48)) 0

/-- The regex `^\d+$`: one or more decimal digits. -/
def isDigits (l : List Char) : Bool := !l.isEmpty && l.all (fun c => c.isDigit)

/-- Fuel-bounded worker for `replaceAll`; the fuel is the length of the
processed list, which suffices for a non-empty pattern. -/
def replaceAllAux (pat rep : List Char) : ℕ → List Char → List Char
  | _, [] => []
  | 0, l => l
  | fuel + 1, c :: cs =>
    if pat.isPrefixOf (c :: cs) then
      rep ++ replaceAllAux pat rep fuel (List.drop (pat.length - 1) cs)
    else c :: replaceAllAux pat rep fuel cs

/-- Python `str.replace(pat, rep)`: replace every (left-to-right,
non-overlapping) occurrence. -/
def replaceAll (pat rep l : List Char) : List Char := replaceAllAux pat rep l.length l

/-!
Cron expression parser, from `src/oban/cron.py`.
-/

/-- `DOW_DICT` from `cron.py`, in insertion order. -/
def DOW_LIST : List (List Char × List Char) :=
  [("MON".data, "1".data), ("TUE".data, "2".data), ("WED".data, "3".data),
   ("THU".data, "4".data), ("FRI".data, "5".data), ("SAT".data, "6".data),
   ("SUN".data, "7".data)]

/-- `MON_DICT` from `cron.py`, in insertion order. -/
def MON_LIST : List (List Char × List Char) :=
  [("JAN".data, "1".data), ("FEB".data, "2".data), ("MAR".data, "3".data),
   ("APR".data, "4".data), ("MAY".data, "5".data), ("JUN".data, "6".data),
   ("JUL".data, "7".data), ("AUG".data, "8".data), ("SEP".data, "9".data),
   ("OCT".data, "10".data), ("NOV".data, "11".data), ("DEC".data, "12".data)]

/-- `MIN_SET = frozenset(range(0, 60))`. -/
def MIN_SET : Finset ℕ := Finset.Icc 0 59

/-- `HRS_SET = frozenset(range(0, 24))`. -/
def HRS_SET : Finset ℕ := Finset.Icc 0 23

/-- `DAY_SET = frozenset(range(1, 32))`. -/
def DAY_SET : Finset ℕ := Finset.Icc 1 31

/-- `MON_SET = frozenset(range(1, 13))`. -/
def MON_SET : Finset ℕ := Finset.Icc 1 12

/-- `DOW_SET = frozenset(range(1, 8))`. -/
def DOW_SET : Finset ℕ := Finset.Icc 1 7

/-- `NICKNAMES` from `cron.py`, in insertion order. -/
def NICKNAMES : List (List Char × List Char) :=
  [("@annually".data, "0 0 1 1 *".data), ("@yearly".data, "0 0 1 1 *".data),
   ("@monthly".data, "0 0 1 * *".data), ("@weekly".data, "0 0 * * 0".data),
   ("@midnight".data, "0 0 * * *".data), ("@daily".data, "0 0 * * *".data),
   ("@hourly".data, "0 * * * *".data)]

/-- Python `dict` lookup over an insertion-ordered association list. -/
def assocLookup : List (List Char × List Char) → List Char → Option (List Char)
  | [], _ => none
  | (k, v) :: rest, key => if key = k then some v else assocLookup rest key

/-- `_trans_field(input, mapper)` from `cron.py`: for each key in insertion
order, replace every occurrence of the key in the current string by its
value (the membership pre-test in the source makes no semantic
difference because replacing an absent pattern is the identity). -/
def _trans_field (input : List Char) (mapper : List (List Char × List Char)) : List Char :=
  mapper.foldl (fun acc kv => replaceAll kv.1 kv.2 acc) input

/-- The regex `[1-9]\d?` anchored on a whole token (step values 1–99). -/
def isStepTok (l : List Char) : Bool :=
  match l with
  | [c] => decide ('1' ≤ c) && decide (c ≤ '9')
  | [c, d] => decide ('1' ≤ c) && decide (c ≤ '9') && d.isDigit
  | _ => false

/-- The regex `^\*\/[1-9]\d?$` from `_parse_part`. -/
def matchStarStep (l : List Char) : Bool :=
  match l with
  | '*' :: '/' :: rest => isStepTok rest
  | _ => false

/-- The regex `^\d+\-\d+$` from `_parse_part`. -/
def matchRangeTok (l : List Char) : Bool :=
  match splitOnChar '-' l with
  | [a, b] => isDigits a && isDigits b
  | _ => false

/-- The regex `^\d+(\-\d+)?\/[1-9]\d?$` from `_parse_part`. -/
def matchRangeStepTok (l : List Char) : Bool :=
  match splitOnChar '/' l with
  | [a, b] => (isDigits a || matchRangeTok a) && isStepTok b
  | _ => false

/-- `_parse_step` from `cron.py`: `set(range(min(all), max(all) + 1, step))`.
Python's `min`/`max` raise on an empty set, hence the error branch. -/
def _parse_step (step : ℕ) (all : Finset ℕ) : Except String (Finset ℕ) :=
  if h : all.Nonempty then
    .ok ((Finset.Icc (all.min' h) (all.max' h)).filter (fun x => (x - all.min' h) % step = 0))
  else .error "min() arg is an empty sequence"

/-- `_parse_range` from `cron.py`: a bare literal `N` yields
`set(range(N, max(all) + 1))`; `N-M` requires `N ≤ M` and yields the
inclusive range; `int()` on a non-digit piece raises. -/
def _parse_range (part : List Char) (all : Finset ℕ) : Except String (Finset ℕ) :=
  match splitOnChar '-' part with
  | [a] =>
    if isDigits a then
      if h : all.Nonempty then .ok (Finset.Icc (natOfDigits a) (all.max' h))
      else .error "max() arg is an empty sequence"
    else .error "invalid literal for int()"
  | [a, b] =>
    if isDigits a && isDigits b then
      if natOfDigits a > natOfDigits b then
        .error "min of range must be less than or equal to max"
      else .ok (Finset.Icc (natOfDigits a) (natOfDigits b))
    else .error "invalid literal for int()"
  | _ => .error ("unrecognized range: " ++ String.mk part)

/-- `_parse_part` from `cron.py`: dispatch on the five token shapes, in the
order of the source's `if`/`elif` chain, else raise. -/
def _parse_part (part : List Char) (all : Finset ℕ) : Except String (Finset ℕ) :=
  if part = ['*'] then .ok all
  else if isDigits part then .ok {natOfDigits part}
  else if matchStarStep part then _parse_step (natOfDigits (part.drop 2)) all
  else if matchRangeStepTok part then
    match splitOnChar '/' part with
    | [sub, step] =>
      match _parse_range sub all with
      | .error e => .error e
      | .ok subSet => _parse_step (natOfDigits step) subSet
    | _ => .error ("unrecognized expression: " ++ String.mk part)
  else if matchRangeTok part then _parse_range part all
  else .error ("unrecognized expression: " ++ String.mk part)

/-- The comma splitting `re.split(r"\s*,\s*", field)` performed by
`_parse_field`: split at every comma and absorb the whitespace adjacent to
each comma (interior piece ends are stripped, the outer ends of the first
and last piece are kept). -/
def commaSplitMid : List (List Char) → List (List Char)
  | [] => []
  | [q] => [stripL q]
  | q :: qs => stripL (stripR q) :: commaSplitMid qs

/-- `re.split(r"\s*,\s*", field)`. -/
def commaSplit (field : List Char) : List (List Char) :=
  match splitOnChar ',' field with
  | [] => []
  | [p] => [p]
  | p :: ps => stripR p :: commaSplitMid ps

/-- `_parse_field` from `cron.py`: parse every comma-separated part (first
raise wins), union the results, and raise when the union is not a subset of
the field's allowed set. -/
def _parse_field (field : List Char) (all : Finset ℕ) : Except String (Finset ℕ) :=
  match exceptMapM (fun p => _parse_part p all) (commaSplit field) with
  | .error e => .error e
  | .ok sets =>
    if sets.foldl (· ∪ ·) ∅ ⊆ all then .ok (sets.foldl (· ∪ ·) ∅)
    else .error ("field " ++ String.mk field ++ " is out of range")

/-- The `Expression` dataclass from `cron.py`. -/
structure Expression where
  input : List Char
  minutes : Finset ℕ
  hours : Finset ℕ
  days : Finset ℕ
  months : Finset ℕ
  weekdays : Finset ℕ
  deriving DecidableEq

/-- `Expression.parse` from `cron.py` on code points: expand a nickname,
split on whitespace runs, require exactly five fields, translate month and
weekday aliases, and parse each field against its allowed set (fields are
evaluated in the order minutes, hours, days, months, weekdays, and the
first raise wins). -/
def Expression.parseChars (input0 : List Char) : Except String Expression :=
  let input :=
    match assocLookup NICKNAMES input0 with
    | some v => v
    | none => input0
  match splitWsL input with
  | [mip, hrp, dap, mop, wdp] =>
    match _parse_field mip MIN_SET with
    | .error e => .error e
    | .ok minutes =>
      match _parse_field hrp HRS_SET with
      | .error e => .error e
      | .ok hours =>
        match _parse_field dap DAY_SET with
        | .error e => .error e
        | .ok days =>
          match _parse_field (_trans_field mop MON_LIST) MON_SET with
          | .error e => .error e
          | .ok months =>
            match _parse_field (_trans_field wdp DOW_LIST) DOW_SET with
            | .error e => .error e
            | .ok weekdays => .ok ⟨input, minutes, hours, days, months, weekdays⟩
  | _ => .error ("incorrect number of fields: " ++ String.mk input)

/-- `Expression.parse` from `cron.py`. -/
def Expression.parse (input : String) : Except String Expression :=
  Expression.parseChars input.data

/-- The fields of a `datetime` value that `Expression.is_now` reads. -/
structure PyDateTime where
  month : ℕ
  day : ℕ
  hour : ℕ
  minute : ℕ
  isoweekday : ℕ
  deriving DecidableEq

/-- `Expression.is_now(time)` from `cron.py` (with the time passed
explicitly, as in every call the tests make). -/
def Expression.is_now (e : Expression) (t : PyDateTime) : Bool :=
  decide (t.month ∈ e.months) && decide (t.isoweekday ∈ e.weekdays) &&
    decide (t.day ∈ e.days) && decide (t.hour ∈ e.hours) && decide (t.minute ∈ e.minutes)

/-!
The `Job` entity, from `src/oban/job.py`.  Only the fields the claims read
are carried; timestamps are integer microseconds since the epoch, the exact
resolution of `datetime` arithmetic.
-/

/-- The fields of `Job` that validation, tag normalization and scheduling
touch. -/
structure Job where
  worker : String
  queue : String
  max_attempts : Int
  priority : Int
  tags : List String
  scheduled_at : Option Int
  deriving DecidableEq

/-- `Job._normalize_tags` from `job.py`:
`sorted({str(tag).strip().lower() for tag in tags if tag and str(tag).strip()})` —
keep the tags that are non-empty and non-blank, strip and lowercase them,
collapse duplicates through the set, and sort the result. -/
def _normalize_tags (tags : List String) : List String :=
  List.insertionSort (fun a b => strLe a b = true)
    (((tags.filter (fun t => !(t == "") && !(pyStrip t == ""))).map
        (fun t => pyLower (pyStrip t))).dedup)

/-- `Job._do_validate` from `job.py`: blank queue, blank worker,
non-positive `max_attempts`, and priority outside `0..9` raise `ValueError`,
in that order; otherwise the job stands.  The result carries the validated
job so the constructor can be expressed as a function. -/
def _do_validate (j : Job) : Except String Job :=
  if pyStrip j.queue = "" then .error "queue must not be blank"
  else if pyStrip j.worker = "" then .error "worker must not be blank"
  else if j.max_attempts ≤ 0 then .error "max_attempts must be greater than 0"
  else if ¬(0 ≤ j.priority ∧ j.priority ≤ 9) then .error "priority must be between 0 and 9"
  else .ok j

/-- The `schedule_in` handling of `Job.__init__` (`job.py` lines 253–256):
when `schedule_in` is given, the local `scheduled_at` is overwritten with
`now + schedule_in`; otherwise the passed `scheduled_at` stands. -/
def scheduleResolve (scheduled_at schedule_in : Option Int) (now : Int) : Option Int :=
  match schedule_in with
  | some d => some (now + d)
  | none => scheduled_at

/-- `Job.__init__` with `_validate=True` from `job.py`: resolve
`schedule_in` (a `timedelta` or int/float seconds, here microseconds after
the exact conversion `timedelta(seconds=x)` performs), normalize the tags,
then validate. -/
def jobInit (worker queue : String) (max_attempts priority : Int) (tags : List String)
    (scheduled_at : Option Int) (schedule_in : Option Int) (now : Int) : Except String Job :=
  _do_validate
    { worker := worker, queue := queue, max_attempts := max_attempts, priority := priority,
      tags := _normalize_tags tags,
      scheduled_at := scheduleResolve scheduled_at schedule_in now }

/-- The `schedule_in` handling of `Job.update` (`job.py` lines 313–318): a
`schedule_in` change is popped and becomes a `scheduled_at` change that
overwrites any `scheduled_at` entry of the same call; absent both, the
job's previous value stands. -/
def updateScheduleResolve (j : Job) (scheduled_at : Option (Option Int))
    (schedule_in : Option Int) (now : Int) : Option Int :=
  match schedule_in with
  | some d => some (now + d)
  | none =>
    match scheduled_at with
    | some v => v
    | none => j.scheduled_at

/-- `Job.update` from `job.py`, restricted to the change keys the claims
concern (`tags`, `priority`, `scheduled_at`, `schedule_in`): the changes
are applied, and then `_normalize_tags` and `_do_validate` run again. -/
def Job.update (j : Job) (tags : Option (List String)) (priority : Option Int)
    (scheduled_at : Option (Option Int)) (schedule_in : Option Int) (now : Int) :
    Except String Job :=
  _do_validate
    { j with tags := _normalize_tags (tags.getD j.tags),
             priority := priority.getD j.priority,
             scheduled_at := updateScheduleResolve j scheduled_at schedule_in now }

/-- `_do_validate` either raises or returns the job it was given. -/
theorem _do_validate_ok {a b : Job} (h : _do_validate a = .ok b) : b = a := by
  unfold _do_validate at h
  split_ifs at h
  exact (Except.ok.inj h).symm

/-!
`insert_job` from `src/oban/query.py` and `Oban.enqueue` from
`src/oban/oban.py`.
-/

/-- Every attribute resolvable on a `Job` instance: the `__slots__` entries
and the methods the class body of `job.py` defines. -/
def job_class_members : List String :=
  ["worker", "id", "state", "queue", "attempt", "max_attempts", "priority", "args",
   "meta", "errors", "tags", "attempted_by", "inserted_at", "attempted_at",
   "cancelled_at", "completed_at", "discarded_at", "scheduled_at", "extra",
   "_cancellation", "__init__", "__str__", "update", "cancelled", "_normalize_tags",
   "_do_validate"]

/-- `class Job` in `job.py` is a plain slotted class, not a dataclass. -/
def job_is_dataclass : Bool := false

/-- `insert_job(conn, job)` from `query.py`: the function first evaluates
`job.to_dict()` — an attribute lookup on the `Job` instance, raising
`AttributeError` when no such member exists — and, were that to succeed,
would finish with `dataclasses.replace(job, **row._asdict())`, which raises
`TypeError` unless `Job` is a dataclass. -/
def insert_job (j : Job) : Except String Job :=
  if "to_dict" ∈ job_class_members then
    if job_is_dataclass then .ok j
    else .error "TypeError: replace() should be called on dataclass instances"
  else .error "AttributeError: Job object has no attribute to_dict"

/-- `Oban.enqueue(job)` from `oban.py`: obtain a connection and delegate to
`query.insert_job`. -/
def enqueue (j : Job) : Except String Job := insert_job j

/-!
`Producer._loop` from `src/oban/_producer.py`.
-/

/-- One wake-up of `Producer._loop` after the notified event fired
(`_producer.py` lines 91–104): clear the event and debounce (neither
touches the fetch decision), skip the fetch when paused, compute
`demand = limit - len(running_jobs)`, skip when `demand ≤ 0`, and otherwise
call `fetch_jobs(demand)`.  The result is the demand passed to
`fetch_jobs`, or `none` when `fetch_jobs` is not called; `running` is the
size of `_running_jobs` at the moment the demand is computed (no await
point separates that computation from the `fetch_jobs` call). -/
def producer_loop_iteration (paused : Bool) (limit : Int) (running : ℕ) : Option Int :=
  if paused then none
  else if limit - (running : Int) ≤ 0 then none
  else some (limit - (running : Int))

/-!
`Stager._stage` from `src/oban/_stager.py`.
-/

/-- The notification loop at the end of `Stager._stage` (`_stager.py` lines
57–59): iterate over the queues returned by `check_available_queues`; for a
queue present in the producer map the code evaluates
`self._producers[queue].notify()` — a synchronous call that sets the
producer's wakeup event and returns `None` — and then `await`s that `None`,
which raises `TypeError` immediately, aborting the loop (the exception is
swallowed by `Stager._loop`).  The result is the list of queues whose
event was actually set, paired with the raised exception, if any. -/
def stage_notify_pass (available : List String) (producers : List String) :
    List String × Option String :=
  match available with
  | [] => ([], none)
  | q :: rest =>
    if q ∈ producers then
      ([q], some "TypeError: object NoneType cannot be used in await expression")
    else stage_notify_pass rest producers

/-!
The cron scheduler loop, `Cron._loop` / `Cron._evaluate` from
`src/oban/cron.py`.
-/

/-- `Cron._evaluate` from `cron.py`:
`jobs = [self._build(*entry) for entry in _table if entry[0].is_now]` then
`print(jobs)`.  The comprehension filter reads the attribute
`entry[0].is_now` — the bound method object, not a call — which is truthy
for every entry, so every entry is selected regardless of the current
time; each selected entry then evaluates `self._build(*entry)`, which
raises `TypeError` because `_build` declares three parameters but the
bound call passes four arguments.  With an empty table the comprehension
is empty and the empty list is only printed.  No database insert occurs on
any path; the returned list models the jobs actually enqueued. -/
def cron_evaluate (_now : PyDateTime) (table : List (Expression × String)) :
    Except String (List String) :=
  match table.filter (fun _ => true) with
  | [] => .ok []
  | _ :: _ => .error "TypeError: _build() takes 3 positional arguments but 4 were given"

/-- One minute tick of `Cron._loop` (`cron.py` lines 199–207): after the
sleep to the minute boundary, `_evaluate` runs only when this node is the
leader; a non-leader inserts nothing. -/
def cron_minute_tick (is_leader : Bool) (now : PyDateTime)
    (table : List (Expression × String)) : Except String (List String) :=
  if is_leader then cron_evaluate now table else .ok []

/-!
Concrete values used by the witnesses below.
-/

/-- The parse of `"* * * * *"`: every field is its full allowed set. -/
def everyMinute : Expression :=
  ⟨"* * * * *".data, MIN_SET, HRS_SET, DAY_SET, MON_SET, DOW_SET⟩

/-- A concrete instant: 2025-10-12 (a Sunday, iso-weekday 7) 03:04 UTC. -/
def sundayMorning : PyDateTime := ⟨10, 12, 3, 4, 7⟩

theorem parse_star_eq : Expression.parse "* * * * *" = .ok everyMinute := by decide

/-!
Claim theorems.
-/

/-- C1.  The claim reads: enqueueing a valid job writes one row and returns
a Job carrying the database-assigned id and timestamps with every other
field preserved.  On the code, `Oban.enqueue` can never do so: for every
job, `query.insert_job` raises `AttributeError` at `job.to_dict()` because
`Job` defines no such member (and the subsequent
`dataclasses.replace(job, ...)` would raise `TypeError`, `Job` not being a
dataclass), so no row is written and no job is returned. -/
theorem enqueue_always_raises (j : Job) :
    enqueue j = .error "AttributeError: Job object has no attribute to_dict" := by
  unfold enqueue insert_job
  rw [if_neg (by decide : ¬("to_dict" ∈ job_class_members))]

/-- C2.  The claim reads: on a leader minute tick, exactly one job is
inserted per matching table entry and none for non-matching entries, and a
non-leader inserts nothing.  On the code, with the single entry
`("* * * * *", "Tick")` — whose expression does match the current minute —
the leader tick raises `TypeError` inside `Cron._evaluate` and inserts zero
jobs (the evaluate path only prints; it never enqueues), while the
non-leader tick indeed inserts nothing. -/
theorem cron_tick_inserts_nothing :
    Expression.is_now everyMinute sundayMorning = true ∧
    cron_minute_tick true sundayMorning [(everyMinute, "Tick")] =
      .error "TypeError: _build() takes 3 positional arguments but 4 were given" ∧
    cron_minute_tick false sundayMorning [(everyMinute, "Tick")] = .ok [] := by
  decide

/-- C3.  In every iteration of the producer loop, `fetch_jobs` is not
called while paused or while `demand = limit - |running|` is non-positive,
and whenever it is called the requested demand is exactly
`limit - |running|` at that moment (hence positive). -/
theorem producer_fetch_demand (paused : Bool) (limit : Int) (running : ℕ) (d : Int)
    (h : producer_loop_iteration paused limit running = some d) :
    paused = false ∧ d = limit - (running : Int) ∧ 0 < d := by
  unfold producer_loop_iteration at h
  by_cases hp : paused = true
  · rw [if_pos hp] at h
    exact Option.noConfusion h
  · rw [if_neg hp] at h
    by_cases hd : limit - (running : Int) ≤ 0
    · rw [if_pos hd] at h
      exact Option.noConfusion h
    · rw [if_neg hd] at h
      cases Option.some.inj h
      exact ⟨by simpa using hp, rfl, by omega⟩

theorem producer_fetch_demand_witness :
    false = false ∧ (7 : Int) = 10 - ((3 : ℕ) : Int) ∧ (0 : Int) < 7 :=
  producer_fetch_demand false 10 3 7 (by decide)

/-- C4.  The claim reads: after a staging pass, every available queue
present in the local producer map gets its producer's wakeup event set.
On the code, the very first notified producer's `None` return value is
`await`ed, raising `TypeError`, so with the available queues
`["alpha", "beta"]` and both producers present only `"alpha"` is notified
and `"beta"` never is. -/
theorem stager_notify_stops_after_first :
    (stage_notify_pass ["alpha", "beta"] ["alpha", "beta"]).1 = ["alpha"] ∧
    (stage_notify_pass ["alpha", "beta"] ["alpha", "beta"]).2 =
      some "TypeError: object NoneType cannot be used in await expression" ∧
    "beta" ∉ (stage_notify_pass ["alpha", "beta"] ["alpha", "beta"]).1 := by
  decide

/-- C5.  For every successfully parsed cron expression and every datetime,
`is_now` holds exactly when the month, iso-weekday, day, hour and minute
each lie in the corresponding parsed set. -/
theorem is_now_iff (s : String) (e : Expression) (t : PyDateTime)
    (h : Expression.parse s = .ok e) :
    e.is_now t = true ↔
      (t.month ∈ e.months ∧ t.isoweekday ∈ e.weekdays ∧ t.day ∈ e.days ∧
        t.hour ∈ e.hours ∧ t.minute ∈ e.minutes) := by
  simp [Expression.is_now, Bool.and_eq_true, decide_eq_true_eq, and_assoc]

theorem is_now_iff_witness :
    everyMinute.is_now sundayMorning = true ↔
      (sundayMorning.month ∈ everyMinute.months ∧
        sundayMorning.isoweekday ∈ everyMinute.weekdays ∧
        sundayMorning.day ∈ everyMinute.days ∧
        sundayMorning.hour ∈ everyMinute.hours ∧
        sundayMorning.minute ∈ everyMinute.minutes) :=
  is_now_iff "* * * * *" everyMinute sundayMorning parse_star_eq

/-- C6.  The claim reads: every one of the seven nicknames parses
successfully to the field sets of its five-field expansion.  On the code,
six of them do, but `@weekly` expands to `"0 0 * * 0"`, whose weekday
literal `0` lies outside the parser's own weekday range `1..7`
(`SUN → 7`), so `Expression.parse("@weekly")` raises `ValueError` — as the
repository's own test suite demands for `"* * * * 0"`. -/
theorem nickname_weekly_rejected :
    (Expression.parse "@weekly").toOption = none ∧
    Expression.parse "@hourly" = Expression.parse "0 * * * *" ∧
    Expression.parse "@daily" = Expression.parse "0 0 * * *" ∧
    Expression.parse "@midnight" = Expression.parse "0 0 * * *" ∧
    Expression.parse "@monthly" = Expression.parse "0 0 1 * *" ∧
    Expression.parse "@yearly" = Expression.parse "0 0 1 1 *" ∧
    Expression.parse "@annually" = Expression.parse "0 0 1 1 *" ∧
    ((Expression.parse "@hourly").toOption.map Expression.minutes) = some {0} := by
  decide

/-- C9.  Validated construction raises `ValueError` exactly when the queue
strips to blank, the worker strips to blank, `max_attempts ≤ 0`, or the
priority lies outside `0..9`. -/
theorem job_validation_iff (worker queue : String) (ma p : Int) (tags : List String)
    (sa si : Option Int) (now : Int) :
    (jobInit worker queue ma p tags sa si now).toOption = none ↔
      (pyStrip queue = "" ∨ pyStrip worker = "" ∨ ma ≤ 0 ∨ p < 0 ∨ 9 < p) := by
  unfold jobInit _do_validate
  dsimp only
  split_ifs with h1 h2 h3 h4
  · exact iff_of_true rfl (Or.inl h1)
  · exact iff_of_true rfl (Or.inr (Or.inl h2))
  · exact iff_of_true rfl (Or.inr (Or.inr (Or.inl h3)))
  · refine iff_of_false (by simp [Except.toOption]) ?_
    rintro (hq | hw | hma | hp | hp)
    · exact h1 hq
    · exact h2 hw
    · exact h3 hma
    · omega
    · omega
  · exact iff_of_true rfl (Or.inr (Or.inr (Or.inr (by omega))))

/-- C10.  When `schedule_in` is passed, the constructed job's
`scheduled_at` equals the construction-time `now` plus the given duration,
regardless of any `scheduled_at` argument passed in the same call. -/
theorem schedule_in_overrides (worker queue : String) (ma p : Int) (tags : List String)
    (sa : Option Int) (d now : Int) (j : Job)
    (h : jobInit worker queue ma p tags sa (some d) now = .ok j) :
    j.scheduled_at = some (now + d) := by
  unfold jobInit at h
  rw [_do_validate_ok h]
  rfl

theorem schedule_in_overrides_witness :
    (Job.mk "w" "default" 20 0 [] (some 160)).scheduled_at = some 160 :=
  schedule_in_overrides "w" "default" 20 0 [] (some 999) 60 100
    (Job.mk "w" "default" 20 0 [] (some 160)) (by decide)

/-!
Tag-normalization lemmas for C8.
-/

theorem pyLower_ne_empty (s : String) (h : s ≠ "") : pyLower s ≠ "" := by
  intro hc
  apply h
  have hd : pyLowerL s.data = ([] : List Char) := congrArg String.data hc
  unfold pyLowerL at hd
  have hnil : s.data = [] := List.map_eq_nil_iff.mp hd
  cases s with
  | mk data =>
    cases hnil
    rfl

theorem normalize_tags_spec (tags : List String) :
    List.Sorted (fun a b => strLe a b = true) (_normalize_tags tags) ∧
    (_normalize_tags tags).Nodup ∧
    ∀ t ∈ _normalize_tags tags, t ≠ "" ∧ ∃ u ∈ tags, t = pyLower (pyStrip u) := by
  refine ⟨List.sorted_insertionSort _ _, ?_, ?_⟩
  · exact ((List.perm_insertionSort _ _).nodup_iff).mpr (List.nodup_dedup _)
  · intro t ht
    have ht2 := (List.perm_insertionSort (fun a b => strLe a b = true) _).mem_iff.mp ht
    rw [List.mem_dedup] at ht2
    obtain ⟨u, hu, hmap⟩ := List.mem_map.mp ht2
    obtain ⟨humem, hcond⟩ := List.mem_filter.mp hu
    have hstrip : pyStrip u ≠ "" := by
      simp only [Bool.and_eq_true, Bool.not_eq_true', beq_eq_false_iff_ne, ne_eq] at hcond
      exact hcond.2
    exact ⟨hmap ▸ pyLower_ne_empty _ hstrip, u, humem, hmap.symm⟩

/-- C8.  Every job produced by validated construction or by `Job.update`
carries tags that are sorted lexicographically (code-point order, Python's
`sorted`), duplicate-free, empty-free, and each equal to some input tag
stripped of surrounding whitespace and lowercased. -/
theorem job_tags_normalized (w q : String) (ma p : Int) (tagsIn : List String)
    (sa si : Option Int) (now : Int) (j0 : Job) (otags : Option (List String))
    (p2 : Option Int) (sa2 : Option (Option Int)) (si2 : Option Int) (now2 : Int) (j : Job)
    (h : jobInit w q ma p tagsIn sa si now = .ok j ∨
         (Job.update j0 otags p2 sa2 si2 now2 = .ok j ∧ tagsIn = otags.getD j0.tags)) :
    List.Sorted (fun a b => strLe a b = true) j.tags ∧ j.tags.Nodup ∧
    ∀ t ∈ j.tags, t ≠ "" ∧ ∃ u ∈ tagsIn, t = pyLower (pyStrip u) := by
  have htags : j.tags = _normalize_tags tagsIn := by
    rcases h with h | ⟨h, rfl⟩
    · unfold jobInit at h
      rw [_do_validate_ok h]
    · unfold Job.update at h
      rw [_do_validate_ok h]
  rw [htags]
  exact normalize_tags_spec tagsIn

/-- The job that `jobInit "test.Worker" "default" 20 0 [" B ", "a"] none none 0`
produces. -/
def witnessJob : Job := Job.mk "test.Worker" "default" 20 0 ["a", "b"] none

theorem job_tags_normalized_witness :
    List.Sorted (fun a b => strLe a b = true) witnessJob.tags ∧ witnessJob.tags.Nodup ∧
    ∀ t ∈ witnessJob.tags, t ≠ "" ∧ ∃ u ∈ [" B ", "a"], t = pyLower (pyStrip u) :=
  job_tags_normalized "test.Worker" "default" 20 0 [" B ", "a"] none none 0
    witnessJob none none none none 0 witnessJob (Or.inl (by decide))

/-!
Lemmas for C7: `Expression.parse` rejects every five-field input in which
some field holds an out-of-range literal or an unrecognized token.
-/

/-- A token matching none of the five shapes of `_parse_part`: the
`else`-branch of the source raises on it (lowercase aliases survive the
uppercase-keyed translation and land here). -/
def unrecognizedTok (part : List Char) : Bool :=
  !(decide (part = ['*']) || isDigits part || matchStarStep part ||
      matchRangeStepTok part || matchRangeTok part)

/-- A part that is an out-of-range literal for the field's allowed set, or
an unrecognized token. -/
def isBadPartB (part : List Char) (all : Finset ℕ) : Bool :=
  (isDigits part && decide (natOfDigits part ∉ all)) || unrecognizedTok part

/-- A field some of whose comma-separated parts is bad. -/
def fieldHasBadB (field : List Char) (all : Finset ℕ) : Bool :=
  (commaSplit field).any (fun p => isBadPartB p all)

theorem parse_part_unrec {p : List Char} {all : Finset ℕ} (h : unrecognizedTok p = true) :
    _parse_part p all = .error ("unrecognized expression: " ++ String.mk p) := by
  unfold unrecognizedTok at h
  simp only [Bool.not_eq_true', Bool.or_eq_false_iff, decide_eq_false_iff_not] at h
  obtain ⟨⟨⟨⟨h1, h2⟩, h3⟩, h4⟩, h5⟩ := h
  unfold _parse_part
  rw [if_neg h1, if_neg (by simp [h2]), if_neg (by simp [h3]), if_neg (by simp [h4]),
    if_neg (by simp [h5])]

theorem parse_part_digits {p : List Char} {all : Finset ℕ} (h : isDigits p = true) :
    _parse_part p all = .ok {natOfDigits p} := by
  have hne : ¬(p = ['*']) := by
    intro hstar
    rw [hstar] at h
    exact absurd h (by decide)
  unfold _parse_part
  rw [if_neg hne, if_pos h]

theorem exceptMapM_ok_mem {α β : Type} (f : α → Except String β) {l : List α}
    {bs : List β} {a : α} (hm : exceptMapM f l = .ok bs) (ha : a ∈ l) :
    ∃ b ∈ bs, f a = .ok b := by
  induction l generalizing bs with
  | nil => cases ha
  | cons x xs ih =>
    unfold exceptMapM at hm
    cases hfx : f x with
    | error e =>
      rw [hfx] at hm
      exact Except.noConfusion hm
    | ok b =>
      rw [hfx] at hm
      cases hrest : exceptMapM f xs with
      | error e =>
        rw [hrest] at hm
        exact Except.noConfusion hm
      | ok bs2 =>
        rw [hrest] at hm
        cases Except.ok.inj hm
        rcases List.mem_cons.mp ha with rfl | hmem
        · exact ⟨b, List.mem_cons_self _ _, hfx⟩
        · obtain ⟨b2, hb2, hfb2⟩ := ih hrest hmem
          exact ⟨b2, List.mem_cons_of_mem _ hb2, hfb2⟩

theorem mem_foldl_union_init (l : List (Finset ℕ)) (init : Finset ℕ) (x : ℕ)
    (hx : x ∈ init) : x ∈ l.foldl (· ∪ ·) init := by
  induction l generalizing init with
  | nil => exact hx
  | cons s ss ih => exact ih _ (Finset.mem_union_left _ hx)

theorem mem_foldl_union (l : List (Finset ℕ)) (s : Finset ℕ) (x : ℕ) (init : Finset ℕ)
    (hs : s ∈ l) (hx : x ∈ s) : x ∈ l.foldl (· ∪ ·) init := by
  induction l generalizing init with
  | nil => cases hs
  | cons t ts ih =>
    rcases List.mem_cons.mp hs with rfl | hmem
    · exact mem_foldl_union_init ts _ x (Finset.mem_union_right _ hx)
    · exact ih _ hmem

theorem parse_field_bad {f : List Char} {all : Finset ℕ} (hb : fieldHasBadB f all = true) :
    ∃ e, _parse_field f all = .error e := by
  rw [fieldHasBadB, List.any_eq_true] at hb
  obtain ⟨p, hp, hbad⟩ := hb
  rw [isBadPartB, Bool.or_eq_true] at hbad
  cases hm : exceptMapM (fun q => _parse_part q all) (commaSplit f) with
  | error e =>
    exact ⟨e, by unfold _parse_field; rw [hm]⟩
  | ok sets =>
    rcases hbad with hlit | hunrec
    · rw [Bool.and_eq_true, decide_eq_true_eq] at hlit
      obtain ⟨hdig, hnot⟩ := hlit
      obtain ⟨b, hbmem, hfb⟩ := exceptMapM_ok_mem _ hm hp
      rw [parse_part_digits hdig] at hfb
      cases Except.ok.inj hfb
      have hxmem : natOfDigits p ∈ sets.foldl (· ∪ ·) ∅ :=
        mem_foldl_union sets _ (natOfDigits p) ∅ hbmem (Finset.mem_singleton_self _)
      have hnsub : ¬(sets.foldl (· ∪ ·) ∅ ⊆ all) := fun hsub => hnot (hsub hxmem)
      exact ⟨_, by unfold _parse_field; simp only [hm]; rw [if_neg hnsub]⟩
    · obtain ⟨b, hbmem, hfb⟩ := exceptMapM_ok_mem _ hm hp
      rw [parse_part_unrec hunrec] at hfb
      exact Except.noConfusion hfb

/-- C7.  `Expression.parse` raises for every input that splits into five
whitespace-separated fields of which some field — after the uppercase
month/weekday alias translation, so that lowercase aliases count as
unrecognized — contains a literal outside the field's range or a token
matching none of the grammar's shapes. -/
theorem parse_rejects_bad_fields (s : String) (mip hrp dap mop wdp : List Char)
    (hsplit : splitWsL s.data = [mip, hrp, dap, mop, wdp])
    (hbad : fieldHasBadB mip MIN_SET = true ∨ fieldHasBadB hrp HRS_SET = true ∨
            fieldHasBadB dap DAY_SET = true ∨
            fieldHasBadB (_trans_field mop MON_LIST) MON_SET = true ∨
            fieldHasBadB (_trans_field wdp DOW_LIST) DOW_SET = true) :
    ∃ e, Expression.parse s = .error e := by
  have hlen5 : (splitWsL s.data).length = 5 := by rw [hsplit]; rfl
  have hnick : assocLookup NICKNAMES s.data = none := by
    unfold NICKNAMES
    simp only [assocLookup]
    split_ifs with k1 k2 k3 k4 k5 k6 k7
    · exact absurd (k1 ▸ hlen5) (by decide)
    · exact absurd (k2 ▸ hlen5) (by decide)
    · exact absurd (k3 ▸ hlen5) (by decide)
    · exact absurd (k4 ▸ hlen5) (by decide)
    · exact absurd (k5 ▸ hlen5) (by decide)
    · exact absurd (k6 ▸ hlen5) (by decide)
    · exact absurd (k7 ▸ hlen5) (by decide)
    · rfl
  rcases hbad with hb | hb | hb | hb | hb
  · obtain ⟨e, he⟩ := parse_field_bad hb
    exact ⟨e, by simp only [Expression.parse, Expression.parseChars, hnick, hsplit, he]⟩
  · cases h1 : _parse_field mip MIN_SET with
    | error e =>
      exact ⟨e, by simp only [Expression.parse, Expression.parseChars, hnick, hsplit, h1]⟩
    | ok v1 =>
      obtain ⟨e, he⟩ := parse_field_bad hb
      exact ⟨e, by simp only [Expression.parse, Expression.parseChars, hnick, hsplit, h1, he]⟩
  · cases h1 : _parse_field mip MIN_SET with
    | error e =>
      exact ⟨e, by simp only [Expression.parse, Expression.parseChars, hnick, hsplit, h1]⟩
    | ok v1 =>
      cases h2 : _parse_field hrp HRS_SET with
      | error e =>
        exact ⟨e, by simp only [Expression.parse, Expression.parseChars, hnick, hsplit, h1, h2]⟩
      | ok v2 =>
        obtain ⟨e, he⟩ := parse_field_bad hb
        exact ⟨e, by
          simp only [Expression.parse, Expression.parseChars, hnick, hsplit, h1, h2, he]⟩
  · cases h1 : _parse_field mip MIN_SET with
    | error e =>
      exact ⟨e, by simp only [Expression.parse, Expression.parseChars, hnick, hsplit, h1]⟩
    | ok v1 =>
      cases h2 : _parse_field hrp HRS_SET with
      | error e =>
        exact ⟨e, by simp only [Expression.parse, Expression.parseChars, hnick, hsplit, h1, h2]⟩
      | ok v2 =>
        cases h3 : _parse_field dap DAY_SET with
        | error e =>
          exact ⟨e, by
            simp only [Expression.parse, Expression.parseChars, hnick, hsplit, h1, h2, h3]⟩
        | ok v3 =>
          obtain ⟨e, he⟩ := parse_field_bad hb
          exact ⟨e, by
            simp only [Expression.parse, Expression.parseChars, hnick, hsplit, h1, h2, h3, he]⟩
  · cases h1 : _parse_field mip MIN_SET with
    | error e =>
      exact ⟨e, by simp only [Expression.parse, Expression.parseChars, hnick, hsplit, h1]⟩
    | ok v1 =>
      cases h2 : _parse_field hrp HRS_SET with
      | error e =>
        exact ⟨e, by simp only [Expression.parse, Expression.parseChars, hnick, hsplit, h1, h2]⟩
      | ok v2 =>
        cases h3 : _parse_field dap DAY_SET with
        | error e =>
          exact ⟨e, by
            simp only [Expression.parse, Expression.parseChars, hnick, hsplit, h1, h2, h3]⟩
        | ok v3 =>
          cases h4 : _parse_field (_trans_field mop MON_LIST) MON_SET with
          | error e =>
            exact ⟨e, by
              simp only [Expression.parse, Expression.parseChars, hnick, hsplit, h1, h2, h3, h4]⟩
          | ok v4 =>
            obtain ⟨e, he⟩ := parse_field_bad hb
            exact ⟨e, by
              simp only [Expression.parse, Expression.parseChars, hnick, hsplit,
                h1, h2, h3, h4, he]⟩

theorem parse_rejects_bad_fields_witness :
    ∃ e, Expression.parse "* * * jan *" = .error e :=
  parse_rejects_bad_fields "* * * jan *" "*".data "*".data "*".data "jan".data "*".data
    (by decide) (Or.inr (Or.inr (Or.inr (Or.inl (by decide)))))

end ObanPy
